import Mathlib

/-!
Verification of the `CustomProcessor` IDA processor module (`src/CustomProc.py`):
a shallow embedding of its instruction matcher (`notify_ana`), control-flow
resolver (`notify_emu`) and text renderers (`notify_out_operand`,
`notify_out_insn`), together with theorems settling the specification's claims.

Host primitives of the disassembly environment (`get_byte`, `add_cref`,
`out_mnem`, `out_name_expr`, output contexts) and the external
`CustomProcInstructionSet` tables are modelled at their interface boundary;
the module's own logic is translated line by line from the source.
-/

namespace CustomProc

/-- Operand type tags of the host's operand record (`op_t.type`), numeric as in
the host SDK. -/
def o_void : Nat := 0
/-- Register operand tag. -/
def o_reg : Nat := 1
/-- Direct memory reference tag. -/
def o_mem : Nat := 2
/-- Displacement (base + index + offset) memory operand tag. -/
def o_displ : Nat := 4
/-- Immediate operand tag. -/
def o_imm : Nat := 5
/-- Immediate near address tag. -/
def o_near : Nat := 7
/-- Processor-specific operand tag used by the module for its multi-register
sum addressing mode. -/
def o_idpspec0 : Nat := 8

/-- Operand data-width tags (`op_t.dtyp`), numeric as in the host SDK. -/
def dt_byte : Nat := 0
/-- Word width tag. -/
def dt_word : Nat := 1
/-- Double-word width tag. -/
def dt_dword : Nat := 2

/-- Modelled from the spec: the reserved sentinel "no register" value
(`NONE_REG`) imported from the external `CustomProcInstructionSet.Registers`
module, which is not among the sources.  The renderer only ever compares
register slots against it for equality, so its concrete value is irrelevant to
every theorem below; it is fixed here so the model stays executable. -/
def NONE_REG : Nat := 0xffff

/-- Shallow embedding of the host's generic operand record `op_t`: one record
with a numeric `type` tag and tag-dependent field interpretation, exactly as
the source consumes it (`reg`, `value`, `addr`, `dtyp`, `specflag1..4`). -/
structure OpT where
  type : Nat := o_void
  reg : Nat := 0
  value : Nat := 0
  addr : Nat := 0
  dtyp : Nat := 0
  specflag1 : Nat := 0
  specflag2 : Nat := 0
  specflag3 : Nat := 0
  specflag4 : Nat := 0
deriving DecidableEq, Repr, Inhabited

/-- Shallow embedding of the host's instruction record `insn_t` as the module
uses it: address `ea`, table index `itype`, byte length `size`, and the operand
slots (`insn[0]`, `insn[1]`, ...). -/
structure InsnT where
  ea : Nat := 0
  itype : Nat := 0
  size : Nat := 0
  ops : List OpT := []
deriving DecidableEq, Repr, Inhabited

/-- Canonical feature flags of an instruction definition, one boolean per bit
the module tests (`CF_JUMP`, `CF_STOP`, `CF_USE1`, `CF_USE2`). -/
structure CanonFeature where
  cfJump : Bool := false
  cfStop : Bool := false
  cfUse1 : Bool := false
  cfUse2 : Bool := false
deriving DecidableEq, Repr, Inhabited

/-- Entry of the processor's `instruc` table: mnemonic and feature flags, as
built from the external instruction class list at init. -/
structure InstrucEntry where
  name : String := ""
  feature : CanonFeature := {}
deriving DecidableEq, Repr, Inhabited

/-- Modelled from the spec: the host's `insn.get_canon_feature()` looks up the
feature flags of the `instruc` table entry at the instruction's `itype`. -/
def get_canon_feature (instruc : List InstrucEntry) (insn : InsnT) : CanonFeature :=
  (instruc.getD insn.itype default).feature

/-- Modelled from the spec: the host's `insn.get_canon_mnem()` looks up the
mnemonic of the `instruc` table entry at the instruction's `itype`. -/
def get_canon_mnem (instruc : List InstrucEntry) (insn : InsnT) : String :=
  (instruc.getD insn.itype default).name

/-- Cross-reference kinds emitted by the resolver: `fl_JN` (jump) and `fl_F`
(ordinary flow). -/
inductive CrefKind where
  | flJN
  | flF
deriving DecidableEq, Repr, Inhabited

/-- Cross-reference edge: from the instruction's address to a successor
address, tagged jump or flow, as handed to the host's `add_cref`. -/
structure Cref where
  frm : Nat
  toA : Nat
  kind : CrefKind
deriving DecidableEq, Repr, Inhabited

/-- Closed set of unconditional-jump mnemonics checked by name in
`notify_emu`. -/
def uncond_jump_mnemonics : List String := ["jmp", "vm_jmp"]

/-- Translation of `CustomProcessor.notify_emu` (src/CustomProc.py:112-126):
`ft = insn.get_canon_feature(); a = insn[0].addr;` if `ft & CF_JUMP` add a jump
cref to `a` and, when the canonical mnemonic is not in `["jmp", "vm_jmp"]`,
a flow cref to `insn.ea + insn.size`; `elif not ft & CF_STOP and not
ft & CF_JUMP` add a flow cref to `insn.ea + insn.size`.  The emitted crefs are
returned in emission order. -/
def notify_emu (instruc : List InstrucEntry) (insn : InsnT) : List Cref :=
  let ft := get_canon_feature instruc insn
  let a := (insn.ops.getD 0 default).addr
  if ft.cfJump then
    Cref.mk insn.ea a CrefKind.flJN ::
      (if get_canon_mnem instruc insn ∈ uncond_jump_mnemonics then []
       else [Cref.mk insn.ea (insn.ea + insn.size) CrefKind.flF])
  else if !ft.cfStop && !ft.cfJump then
    [Cref.mk insn.ea (insn.ea + insn.size) CrefKind.flF]
  else
    []

/-- Modelled from the spec: the host primitive `get_byte` reads the byte stored
at an address of the byte stream; an address outside the mapped stream reads as
`0xff` (the host's uninitialized-byte value). -/
def get_byte (stream : List Nat) (ea : Nat) : Nat :=
  stream.getD ea 0xff

/-- Entry of the processor's instruction class list as `notify_ana` consumes
it: the class attributes `opcode` and `size` read by the matcher, together
with the mnemonic and feature flags, and its decode capability.  The decode
capability itself (`emulate` in the external `CustomProcInstructionSet.
Instructions` module, absent from the sources) is kept abstract here as the
function computing the operand list from the byte stream and the address, per
the spec's `decode(bytes, address) -> operandList` contract. -/
structure InstructionClass where
  opcode : Nat
  size : Nat
  name : String := ""
  feature : CanonFeature := {}
  decodeOps : List Nat → Nat → List OpT

/-- Loop body of `notify_ana` (src/CustomProc.py:102-107): scan the remaining
instruction classes in table order, carrying the table index `idx`; on the
first class whose `opcode` equals the fetched byte, set `insn.itype` to its
index and `insn.size` to its declared size, run its decode capability to fill
the operand slots, and return `insn.size`; if the scan exhausts the table,
return the failure value with the instruction record untouched. -/
def anaLoop (stream : List Nat) (opcode : Nat) (insn : InsnT) (idx : Nat) :
    List InstructionClass → Option Nat × InsnT
  | [] => (none, insn)
  | cls :: rest =>
    if cls.opcode = opcode then
      (some cls.size,
        { insn with itype := idx, size := cls.size, ops := cls.decodeOps stream insn.ea })
    else
      anaLoop stream opcode insn (idx + 1) rest

/-- Translation of `CustomProcessor.notify_ana` (src/CustomProc.py:99-108):
fetch `opcode = get_byte(insn.ea)` and scan `self.instructions` (the
enumeration of the instruction class list, iterated in insertion order) for
the first matching definition; `False` (here `none`) signals no match. -/
def notify_ana (instructions : List InstructionClass) (stream : List Nat)
    (insn : InsnT) : Option Nat × InsnT :=
  anaLoop stream (get_byte stream insn.ea) insn 0 instructions

/-- Default instruction class used only to state `List.getD` lookups. -/
def dfltCls : InstructionClass :=
  { opcode := 0, size := 0, decodeOps := fun _ _ => [] }

/-- Error taxonomy of the Analyze entry, per the spec's §7: both conditions are
recoverable and reported to the host as "not an instruction here". -/
inductive AnaError where
  | UnrecognizedOpcode
  | TruncatedInstruction
deriving DecidableEq, Repr, Inhabited

/-- Definition record for the spec-modelled decode pipeline: opcode byte,
declared size, and the pure function producing the operand list from exactly
the instruction's own bytes. -/
structure SpecDef where
  opcode : Nat
  size : Nat
  opsOf : List Nat → List OpT

/-- Modelled from the spec: the decode capability of a matched instruction
definition (the `emulate` methods of the external `CustomProcInstructionSet.
Instructions` classes, absent from the sources).  It consumes exactly the
declared `size` bytes starting at the address; when the stream ends before
`address + size` it fails with `TruncatedInstruction` instead of reading out
of bounds, and otherwise computes the operand list from those bytes alone. -/
def specDecode (d : SpecDef) (stream : List Nat) (ea : Nat) :
    Except AnaError (List OpT) :=
  if ea + d.size ≤ stream.length then
    Except.ok (d.opsOf ((stream.drop ea).take d.size))
  else
    Except.error AnaError.TruncatedInstruction

/-- Modelled from the spec: first-match scan of the Analyze entry over the
spec-modelled definitions, propagating a decode failure through the same
recoverable error channel that reports an unrecognized opcode. -/
def specScan (stream : List Nat) (ea : Nat) (b : Nat) :
    List SpecDef → Except AnaError (Nat × List OpT)
  | [] => Except.error AnaError.UnrecognizedOpcode
  | d :: rest =>
    if d.opcode = b then
      match specDecode d stream ea with
      | Except.ok ops => Except.ok (d.size, ops)
      | Except.error e => Except.error e
    else
      specScan stream ea b rest

/-- Modelled from the spec: the Analyze entry point combining the source
matcher's scan with the spec-modelled decode capability. -/
def specAnalyze (table : List SpecDef) (stream : List Nat) (ea : Nat) :
    Except AnaError (Nat × List OpT) :=
  specScan stream ea (get_byte stream ea) table

/-- Default spec definition used only to state `List.getD` lookups. -/
def dfltSpecDef : SpecDef :=
  { opcode := 0, size := 0, opsOf := fun _ => [] }

/-- Output tokens of the host's output context, one constructor per output
primitive the module calls: `out_printf`, `out_register`, `out_long(v, 16)`,
`out_value(op, OOFW_IMM)`, a successful `out_name_expr`, `out_tagon` /
`out_tagoff` with `COLOR_ERROR`, and `out_mnem`. -/
inductive OutToken where
  | str (s : String)
  | register (r : String)
  | long (v : Nat)
  | value (v : Nat)
  | nameExpr (s : String)
  | tagon
  | tagoff
  | mnem (s : String)
deriving DecidableEq, Repr, Inhabited

/-- Translation of `CustomProcessor.notify_out_operand`
(src/CustomProc.py:130-174), dispatching on the operand's numeric `type` tag
exactly as the source's `if`/`elif` chain does and emitting the same output
calls in the same order.  `resolve` models the host's symbolic-name lookup
behind `out_name_expr`; the returned boolean is the callback's return value
(`return True` in the source, reached on every path). -/
def notify_out_operand (regNames : List String) (resolve : Nat → Option String)
    (op : OpT) : Bool × List OutToken :=
  if op.type = o_imm then
    (true, [OutToken.value op.value])
  else if op.type = o_displ then
    (true,
      [OutToken.str "[", OutToken.register (regNames.getD op.reg ""), OutToken.str " + "] ++
      (if op.value ≠ NONE_REG then
        [OutToken.register (regNames.getD op.value ""), OutToken.str " + "]
      else []) ++
      [OutToken.long op.addr, OutToken.str "]"])
  else if op.type = o_reg then
    (true, [OutToken.register (regNames.getD op.reg "")])
  else if op.type = o_near ∨ op.type = o_mem then
    match resolve op.addr with
    | some nm => (true, [OutToken.nameExpr nm])
    | none => (true, [OutToken.tagon, OutToken.long op.addr, OutToken.tagoff])
  else if op.type = o_idpspec0 then
    (true,
      (if op.dtyp = dt_byte then [OutToken.str "byte ptr ["]
       else if op.dtyp = dt_word then [OutToken.str "word ptr ["]
       else if op.dtyp = dt_dword then [OutToken.str "dword ptr ["]
       else [OutToken.str "["]) ++
      [OutToken.register (regNames.getD op.specflag1 ""), OutToken.str " + "] ++
      (if op.specflag2 ≠ NONE_REG then
        [OutToken.register (regNames.getD op.specflag2 ""), OutToken.str " + "]
      else []) ++
      (if op.specflag3 ≠ NONE_REG then
        [OutToken.register (regNames.getD op.specflag3 ""), OutToken.str " + "]
      else []) ++
      (if op.specflag4 ≠ NONE_REG then
        [OutToken.register (regNames.getD op.specflag4 ""), OutToken.str " + "]
      else []) ++
      [OutToken.long op.value, OutToken.str "]"])
  else
    (true, [])

/-- Translation of `CustomProcessor.notify_out_insn`
(src/CustomProc.py:178-187): emit the mnemonic through `out_mnem`, then, if
`CF_USE1` is set, operand slot 0 through `out_one_operand(0)` (which the host
dispatches back to `notify_out_operand`), and, if `CF_USE2` is set, the
literal `", "` followed by operand slot 1. -/
def notify_out_insn (instruc : List InstrucEntry) (regNames : List String)
    (resolve : Nat → Option String) (insn : InsnT) : List OutToken :=
  let ft := get_canon_feature instruc insn
  [OutToken.mnem (get_canon_mnem instruc insn)] ++
  (if ft.cfUse1 then (notify_out_operand regNames resolve (insn.ops.getD 0 default)).2
   else []) ++
  (if ft.cfUse2 then
    OutToken.str ", " :: (notify_out_operand regNames resolve (insn.ops.getD 1 default)).2
   else [])

/-- Modelled from the spec: the host renders `out_long(v, 16)` as the bare
hexadecimal digits of the value (offsets and addresses display in
hexadecimal). -/
def hexStr (v : Nat) : String :=
  String.mk (Nat.toDigits 16 v)

/-- Abstract text marker the host places at `out_tagon(COLOR_ERROR)`. -/
def errTagOn : String := "<color_error>"

/-- Abstract text marker the host places at `out_tagoff(COLOR_ERROR)`. -/
def errTagOff : String := "</color_error>"

/-- Flattening of one output token to display text.  `out_value` with
`OOFW_IMM` uses the host's standard immediate formatting (modelled from the
spec's round-trip scenario as the decimal value), and `out_mnem` pads the
mnemonic with the single separator space the host appends before the first
operand. -/
def flattenTok : OutToken → String
  | OutToken.str s => s
  | OutToken.register r => r
  | OutToken.long v => hexStr v
  | OutToken.value v => toString v
  | OutToken.nameExpr s => s
  | OutToken.tagon => errTagOn
  | OutToken.tagoff => errTagOff
  | OutToken.mnem s => s ++ " "

/-- Display text of a whole output-token sequence. -/
def flattenStr : List OutToken → String
  | [] => ""
  | t :: ts => flattenTok t ++ flattenStr ts

/-- Optional register term of a bracketed sum as the spec states it: the
slot's register name followed by its trailing `" + "` when the slot is not the
sentinel, nothing otherwise. -/
def regTerm (regNames : List String) (r : Nat) : String :=
  if r = NONE_REG then "" else regNames.getD r "" ++ " + "

/-- Size qualifier selected by the width tag, as the spec states it. -/
def widthTagStr (d : Nat) : String :=
  if d = dt_byte then "byte ptr "
  else if d = dt_word then "word ptr "
  else if d = dt_dword then "dword ptr "
  else ""

end CustomProc

namespace CustomProc

theorem anaLoop_no_match (stream : List Nat) (opcode : Nat) (insn : InsnT) :
    ∀ (l : List InstructionClass) (idx : Nat),
      (∀ cls ∈ l, cls.opcode ≠ opcode) →
      anaLoop stream opcode insn idx l = (none, insn) := by
  intro l
  induction l with
  | nil => intro idx _; rfl
  | cons c rest ih =>
    intro idx h
    have hc : c.opcode ≠ opcode := h c (List.mem_cons_self c rest)
    simp only [anaLoop, if_neg hc]
    exact ih (idx + 1) fun cls hm => h cls (List.mem_cons_of_mem c hm)

theorem anaLoop_first_match (stream : List Nat) (opcode : Nat) (insn : InsnT) :
    ∀ (l : List InstructionClass) (idx i : Nat),
      i < l.length →
      (l.getD i dfltCls).opcode = opcode →
      (∀ j, j < i → (l.getD j dfltCls).opcode ≠ opcode) →
      anaLoop stream opcode insn idx l =
        (some (l.getD i dfltCls).size,
          { insn with
              itype := idx + i
              size := (l.getD i dfltCls).size
              ops := (l.getD i dfltCls).decodeOps stream insn.ea }) := by
  intro l
  induction l with
  | nil => intro idx i hi; exact absurd hi (by simp)
  | cons c rest ih =>
    intro idx i hi hmatch hfirst
    cases i with
    | zero =>
      simp only [List.getD_cons_zero] at hmatch ⊢
      simp only [anaLoop, if_pos hmatch]
      simp
    | succ i' =>
      have hc : c.opcode ≠ opcode := by
        have := hfirst 0 (Nat.succ_pos i')
        simpa [List.getD_cons_zero] using this
      simp only [anaLoop, if_neg hc]
      have hlen : i' < rest.length := by
        simpa [List.length_cons, Nat.succ_lt_succ_iff] using hi
      have hm' : (rest.getD i' dfltCls).opcode = opcode := by
        simpa [List.getD_cons_succ] using hmatch
      have hf' : ∀ j, j < i' → (rest.getD j dfltCls).opcode ≠ opcode := by
        intro j hj
        have := hfirst (j + 1) (Nat.succ_lt_succ hj)
        simpa [List.getD_cons_succ] using this
      have := ih (idx + 1) i' hlen hm' hf'
      rw [this]
      simp only [List.getD_cons_succ]
      have harith : idx + 1 + i' = idx + (i' + 1) := by omega
      rw [harith]

theorem specScan_first_match (stream : List Nat) (ea : Nat) (b : Nat) :
    ∀ (l : List SpecDef) (i : Nat),
      i < l.length →
      (l.getD i dfltSpecDef).opcode = b →
      (∀ j, j < i → (l.getD j dfltSpecDef).opcode ≠ b) →
      specScan stream ea b l =
        (match specDecode (l.getD i dfltSpecDef) stream ea with
         | Except.ok ops => Except.ok ((l.getD i dfltSpecDef).size, ops)
         | Except.error e => Except.error e) := by
  intro l
  induction l with
  | nil => intro i hi; exact absurd hi (by simp)
  | cons d rest ih =>
    intro i hi hmatch hfirst
    cases i with
    | zero =>
      simp only [List.getD_cons_zero] at hmatch ⊢
      simp only [specScan, if_pos hmatch]
    | succ i' =>
      have hd : d.opcode ≠ b := by
        have := hfirst 0 (Nat.succ_pos i')
        simpa [List.getD_cons_zero] using this
      simp only [specScan, if_neg hd]
      have hlen : i' < rest.length := by
        simpa [List.length_cons, Nat.succ_lt_succ_iff] using hi
      have hm' : (rest.getD i' dfltSpecDef).opcode = b := by
        simpa [List.getD_cons_succ] using hmatch
      have hf' : ∀ j, j < i' → (rest.getD j dfltSpecDef).opcode ≠ b := by
        intro j hj
        have := hfirst (j + 1) (Nat.succ_lt_succ hj)
        simpa [List.getD_cons_succ] using this
      have := ih i' hlen hm' hf'
      rw [this]
      simp only [List.getD_cons_succ]

/-- C1: for every decoded jump-class instruction, `notify_emu` emits a jump
edge to the operand-derived target (`insn[0].addr`); it additionally emits a
flow edge to `address + size` if and only if the mnemonic is not in the closed
unconditional set `["jmp", "vm_jmp"]`, so a conditional jump yields exactly the
two edges (jump, then flow) in that order and an unconditional jump yields
exactly the one jump edge. -/
theorem notify_emu_jump_edges (instruc : List InstrucEntry) (insn : InsnT)
    (hj : (get_canon_feature instruc insn).cfJump = true) :
    (get_canon_mnem instruc insn ∈ uncond_jump_mnemonics →
      notify_emu instruc insn =
        [Cref.mk insn.ea (insn.ops.getD 0 default).addr CrefKind.flJN]) ∧
    (get_canon_mnem instruc insn ∉ uncond_jump_mnemonics →
      notify_emu instruc insn =
        [Cref.mk insn.ea (insn.ops.getD 0 default).addr CrefKind.flJN,
         Cref.mk insn.ea (insn.ea + insn.size) CrefKind.flF]) := by
  constructor
  · intro hm
    simp [notify_emu, hj, hm]
  · intro hm
    simp [notify_emu, hj, hm]

/-- Witness for C1 on concrete inputs: an unconditional `jmp` at 0x100 of size
3 targeting 0x200 yields only the jump edge, and a conditional `jz` yields the
jump edge then the flow edge. -/
theorem notify_emu_jump_edges_witness :
    (notify_emu [⟨"jmp", ⟨true, false, true, false⟩⟩]
        ⟨0x100, 0, 3, [{ type := o_near, addr := 0x200 }]⟩ =
      [Cref.mk 0x100 0x200 CrefKind.flJN]) ∧
    (notify_emu [⟨"jz", ⟨true, false, true, false⟩⟩]
        ⟨0x100, 0, 3, [{ type := o_near, addr := 0x200 }]⟩ =
      [Cref.mk 0x100 0x200 CrefKind.flJN, Cref.mk 0x100 0x103 CrefKind.flF]) := by
  constructor
  · exact (notify_emu_jump_edges _ _ (by decide)).1 (by decide)
  · exact (notify_emu_jump_edges _ _ (by decide)).2 (by decide)

/-- C4: for every decoded non-jump-class instruction, `notify_emu` returns
exactly the single flow edge `(address, address + size, flow)` when the
instruction is not stop-class, and the empty sequence when it is stop-class. -/
theorem notify_emu_nonjump_edges (instruc : List InstrucEntry) (insn : InsnT)
    (hj : (get_canon_feature instruc insn).cfJump = false) :
    ((get_canon_feature instruc insn).cfStop = false →
      notify_emu instruc insn =
        [Cref.mk insn.ea (insn.ea + insn.size) CrefKind.flF]) ∧
    ((get_canon_feature instruc insn).cfStop = true →
      notify_emu instruc insn = []) := by
  constructor
  · intro hs
    simp [notify_emu, hj, hs]
  · intro hs
    simp [notify_emu, hj, hs]

/-- Witness for C4 on concrete inputs: a plain `mov` of size 2 at 0x40 yields
one flow edge to 0x42, and a `hlt` (stop-class) yields no edges. -/
theorem notify_emu_nonjump_edges_witness :
    (notify_emu [⟨"mov", ⟨false, false, true, true⟩⟩] ⟨0x40, 0, 2, []⟩ =
      [Cref.mk 0x40 0x42 CrefKind.flF]) ∧
    (notify_emu [⟨"hlt", ⟨false, true, false, false⟩⟩] ⟨0x40, 0, 1, []⟩ = []) := by
  constructor
  · exact (notify_emu_nonjump_edges _ _ (by decide)).1 (by decide)
  · exact (notify_emu_nonjump_edges _ _ (by decide)).2 (by decide)

/-- C10: for every decoded jump-class instruction — whatever the rest of the
feature flags, in particular whichever operand slots `CF_USE1`/`CF_USE2`
declare used, since the statement quantifies over every `instruc` table — the
first edge `notify_emu` emits is the jump edge whose target is exactly the
`addr` field of operand slot 0, which the source reads unconditionally before
the flag dispatch (`a = insn[0].addr`). -/
theorem notify_emu_jump_target_is_op0_addr (instruc : List InstrucEntry) (insn : InsnT)
    (hj : (get_canon_feature instruc insn).cfJump = true) :
    (notify_emu instruc insn).head? =
      some (Cref.mk insn.ea (insn.ops.getD 0 default).addr CrefKind.flJN) := by
  by_cases hm : get_canon_mnem instruc insn ∈ uncond_jump_mnemonics
  · simp [notify_emu, hj, hm]
  · simp [notify_emu, hj, hm]

/-- Witness for C10 on a concrete input: a jump-class entry whose feature flags
declare no operand slot used still takes its jump target from operand slot 0's
`addr` field. -/
theorem notify_emu_jump_target_is_op0_addr_witness :
    (notify_emu [⟨"vm_jmp", ⟨true, true, false, false⟩⟩]
        ⟨0x10, 0, 4, [{ type := o_near, addr := 0x77 }]⟩).head? =
      some (Cref.mk 0x10 0x77 CrefKind.flJN) :=
  notify_emu_jump_target_is_op0_addr _ _ (by decide)

/-- C3: for every byte stream and address, `notify_ana` reads the byte at the
address and scans the instruction-definition table in table order; for the
first definition whose opcode equals that byte (first conjunct, with `i` the
index of the first match) it sets `itype` to that definition's table index and
`size` to its declared size, fills the operand list through the definition's
decode capability, and returns the size; if no definition's opcode matches
(second conjunct), it returns the failure value. -/
theorem notify_ana_first_match_or_not_found (instructions : List InstructionClass)
    (stream : List Nat) (insn : InsnT) :
    (∀ i, i < instructions.length →
      (instructions.getD i dfltCls).opcode = get_byte stream insn.ea →
      (∀ j, j < i → (instructions.getD j dfltCls).opcode ≠ get_byte stream insn.ea) →
      notify_ana instructions stream insn =
        (some (instructions.getD i dfltCls).size,
          { insn with
              itype := i
              size := (instructions.getD i dfltCls).size
              ops := (instructions.getD i dfltCls).decodeOps stream insn.ea })) ∧
    ((∀ cls ∈ instructions, cls.opcode ≠ get_byte stream insn.ea) →
      notify_ana instructions stream insn = (none, insn)) := by
  constructor
  · intro i hi hmatch hfirst
    have := anaLoop_first_match stream (get_byte stream insn.ea) insn instructions 0 i
      hi hmatch hfirst
    simpa [notify_ana] using this
  · intro h
    exact anaLoop_no_match stream (get_byte stream insn.ea) insn instructions 0 h

/-- Witness for C3 on concrete inputs: with a two-entry table, the byte `0x21`
at address 1 selects the second definition (table index 1, size 2) and its
decode result, while the byte `0x05` matches no entry and fails. -/
theorem notify_ana_first_match_or_not_found_witness :
    (notify_ana
        [{ opcode := 0x20, size := 1, decodeOps := fun _ _ => [] },
         { opcode := 0x21, size := 2,
           decodeOps := fun s ea => [{ type := o_imm, value := get_byte s (ea + 1) }] }]
        [0x00, 0x21, 0x07] ⟨1, 0, 0, []⟩ =
      (some 2, ⟨1, 1, 2, [{ type := o_imm, value := 0x07 }]⟩)) ∧
    (notify_ana
        [{ opcode := 0x20, size := 1, decodeOps := fun _ _ => [] },
         { opcode := 0x21, size := 2,
           decodeOps := fun s ea => [{ type := o_imm, value := get_byte s (ea + 1) }] }]
        [0x00, 0x05, 0x07] ⟨1, 0, 0, []⟩ = (none, ⟨1, 0, 0, []⟩)) := by
  constructor
  · have h := (notify_ana_first_match_or_not_found
      [{ opcode := 0x20, size := 1, decodeOps := fun _ _ => [] },
       { opcode := 0x21, size := 2,
         decodeOps := fun s ea => [{ type := o_imm, value := get_byte s (ea + 1) }] }]
      [0x00, 0x21, 0x07] ⟨1, 0, 0, []⟩).1 1 (by decide) (by decide)
      (by
        intro j hj
        interval_cases j
        decide)
    simpa using h
  · have h := (notify_ana_first_match_or_not_found
      [{ opcode := 0x20, size := 1, decodeOps := fun _ _ => [] },
       { opcode := 0x21, size := 2,
         decodeOps := fun s ea => [{ type := o_imm, value := get_byte s (ea + 1) }] }]
      [0x00, 0x05, 0x07] ⟨1, 0, 0, []⟩).2
      (by
        intro cls hm
        simp only [List.mem_cons, List.mem_singleton] at hm
        rcases hm with h1 | h2 | h3
        · subst h1; decide
        · subst h2; decide
        · cases h3)
    exact h

/-- C9: when no instruction definition's opcode equals the byte at the given
address, `notify_ana` returns the failure value and leaves every field of the
instruction record untouched: `itype`, `size` and the operand list are exactly
as passed in, so the unrecognized-opcode failure is atomic. -/
theorem notify_ana_failure_is_atomic (instructions : List InstructionClass)
    (stream : List Nat) (insn : InsnT)
    (h : ∀ cls ∈ instructions, cls.opcode ≠ get_byte stream insn.ea) :
    (notify_ana instructions stream insn).1 = none ∧
    (notify_ana instructions stream insn).2.itype = insn.itype ∧
    (notify_ana instructions stream insn).2.size = insn.size ∧
    (notify_ana instructions stream insn).2.ops = insn.ops := by
  have heq : notify_ana instructions stream insn = (none, insn) :=
    anaLoop_no_match stream (get_byte stream insn.ea) insn instructions 0 h
  rw [heq]
  exact ⟨rfl, rfl, rfl, rfl⟩

/-- Witness for C9 on a concrete input: a record carrying stale `itype`,
`size` and operands comes back from a failed match bit-for-bit unchanged. -/
theorem notify_ana_failure_is_atomic_witness :
    (notify_ana [{ opcode := 0x20, size := 1, decodeOps := fun _ _ => [] }]
        [0x99] ⟨0, 5, 7, [{ type := o_reg, reg := 3 }]⟩).1 = none ∧
    (notify_ana [{ opcode := 0x20, size := 1, decodeOps := fun _ _ => [] }]
        [0x99] ⟨0, 5, 7, [{ type := o_reg, reg := 3 }]⟩).2.itype = 5 ∧
    (notify_ana [{ opcode := 0x20, size := 1, decodeOps := fun _ _ => [] }]
        [0x99] ⟨0, 5, 7, [{ type := o_reg, reg := 3 }]⟩).2.size = 7 ∧
    (notify_ana [{ opcode := 0x20, size := 1, decodeOps := fun _ _ => [] }]
        [0x99] ⟨0, 5, 7, [{ type := o_reg, reg := 3 }]⟩).2.ops =
      [{ type := o_reg, reg := 3 }] :=
  notify_ana_failure_is_atomic _ _ _
    (by
      intro cls hm
      simp only [List.mem_singleton] at hm
      subst hm
      decide)

/-- C2: for every matched instruction definition whose decode needs bytes
beyond the available stream, the spec-modelled decode fails with
`TruncatedInstruction` (first conjunct), the Analyze pipeline reports that
failure through the same recoverable error channel as an unrecognized opcode
(second conjunct, with `i` the index of the first opcode match), and decode
never reads past the declared size: its result is determined by the `size`
bytes starting at the address alone (third conjunct). -/
theorem specDecode_truncation_safe (d : SpecDef) (stream : List Nat) (ea : Nat) :
    (stream.length < ea + d.size →
      specDecode d stream ea = Except.error AnaError.TruncatedInstruction) ∧
    (∀ (table : List SpecDef) (i : Nat),
      i < table.length →
      table.getD i dfltSpecDef = d →
      (table.getD i dfltSpecDef).opcode = get_byte stream ea →
      (∀ j, j < i → (table.getD j dfltSpecDef).opcode ≠ get_byte stream ea) →
      stream.length < ea + d.size →
      specAnalyze table stream ea = Except.error AnaError.TruncatedInstruction) ∧
    (∀ stream2 : List Nat,
      (stream.drop ea).take d.size = (stream2.drop ea).take d.size →
      ea + d.size ≤ stream.length →
      ea + d.size ≤ stream2.length →
      specDecode d stream ea = specDecode d stream2 ea) := by
  refine ⟨?_, ?_, ?_⟩
  · intro h
    have hn : ¬ ea + d.size ≤ stream.length := by omega
    simp only [specDecode, if_neg hn]
  · intro table i hi hd hmatch hfirst hlen
    have hs := specScan_first_match stream ea (get_byte stream ea) table i hi hmatch hfirst
    rw [hd] at hs
    have hn : ¬ ea + d.size ≤ stream.length := by omega
    have htr : specDecode d stream ea = Except.error AnaError.TruncatedInstruction := by
      simp only [specDecode, if_neg hn]
    rw [specAnalyze, hs, htr]
  · intro stream2 hslice h1 h2
    simp only [specDecode, if_pos h1, if_pos h2, hslice]

/-- Witness for C2 on concrete inputs: a matched 4-byte definition against a
2-byte stream fails with `TruncatedInstruction` at both the decode and the
Analyze level, and on two sufficient streams agreeing on the instruction's
bytes the decode results coincide. -/
theorem specDecode_truncation_safe_witness :
    (specDecode { opcode := 0x30, size := 4, opsOf := fun _ => [] } [0x30, 0x01] 0 =
      Except.error AnaError.TruncatedInstruction) ∧
    (specAnalyze [{ opcode := 0x30, size := 4, opsOf := fun _ => [] }] [0x30, 0x01] 0 =
      Except.error AnaError.TruncatedInstruction) ∧
    (specDecode { opcode := 0x30, size := 4, opsOf := fun _ => [] }
        [0x30, 0x01, 0x02, 0x03] 0 =
      specDecode { opcode := 0x30, size := 4, opsOf := fun _ => [] }
        [0x30, 0x01, 0x02, 0x03, 0xaa] 0) := by
  have h := specDecode_truncation_safe
    { opcode := 0x30, size := 4, opsOf := fun _ => [] } [0x30, 0x01] 0
  refine ⟨h.1 (by decide), ?_, ?_⟩
  · exact h.2.1 [{ opcode := 0x30, size := 4, opsOf := fun _ => [] }] 0
      (by decide) rfl (by decide)
      (by intro j hj; exact absurd hj (Nat.not_lt_zero j)) (by decide)
  · exact (specDecode_truncation_safe
      { opcode := 0x30, size := 4, opsOf := fun _ => [] }
      [0x30, 0x01, 0x02, 0x03] 0).2.2 [0x30, 0x01, 0x02, 0x03, 0xaa]
      (by decide) (by decide) (by decide)

theorem flattenStr_append (xs ys : List OutToken) :
    flattenStr (xs ++ ys) = flattenStr xs ++ flattenStr ys := by
  induction xs with
  | nil => simp [flattenStr]
  | cons t ts ih => simp [flattenStr, ih, String.append_assoc]

theorem flattenStr_width (d : Nat) :
    flattenStr (if d = dt_byte then [OutToken.str "byte ptr ["]
      else if d = dt_word then [OutToken.str "word ptr ["]
      else if d = dt_dword then [OutToken.str "dword ptr ["]
      else [OutToken.str "["]) = widthTagStr d ++ "[" := by
  unfold widthTagStr
  split_ifs <;> simp [flattenStr, flattenTok]

/-- C5: for every `MultiBaseSum` operand (`o_idpspec0`), the renderer emits
the size qualifier selected by the width tag, then the bracketed sum of the
register terms in fixed slot order `reg1, reg2, reg3, reg4` followed by the
offset in hexadecimal, where each of slots 2-4 and its trailing `" + "` appear
exactly when the slot is not the sentinel, leaving no gap (first conjunct);
in particular, only `reg1` populated with a byte width tag yields exactly
`byte ptr [reg1 + offset]` (second conjunct). -/
theorem multibase_sum_render (regNames : List String) (resolve : Nat → Option String)
    (op : OpT) (ht : op.type = o_idpspec0) :
    (flattenStr (notify_out_operand regNames resolve op).2 =
      widthTagStr op.dtyp ++ "[" ++ regNames.getD op.specflag1 "" ++ " + " ++
      regTerm regNames op.specflag2 ++ regTerm regNames op.specflag3 ++
      regTerm regNames op.specflag4 ++ hexStr op.value ++ "]") ∧
    (op.dtyp = dt_byte → op.specflag2 = NONE_REG → op.specflag3 = NONE_REG →
      op.specflag4 = NONE_REG →
      flattenStr (notify_out_operand regNames resolve op).2 =
        "byte ptr [" ++ regNames.getD op.specflag1 "" ++ " + " ++
        hexStr op.value ++ "]") := by
  have hmain :
      flattenStr (notify_out_operand regNames resolve op).2 =
        widthTagStr op.dtyp ++ "[" ++ regNames.getD op.specflag1 "" ++ " + " ++
        regTerm regNames op.specflag2 ++ regTerm regNames op.specflag3 ++
        regTerm regNames op.specflag4 ++ hexStr op.value ++ "]" := by
    by_cases h2 : op.specflag2 = NONE_REG <;>
      by_cases h3 : op.specflag3 = NONE_REG <;>
        by_cases h4 : op.specflag4 = NONE_REG <;>
          simp [notify_out_operand, ht, o_idpspec0, o_imm, o_displ, o_reg,
            o_near, o_mem, h2, h3, h4, regTerm, flattenStr, flattenTok,
            flattenStr_append, flattenStr_width, String.append_assoc]
  refine ⟨hmain, ?_⟩
  intro hb h2 h3 h4
  rw [hmain, hb, h2, h3, h4]
  simp [widthTagStr, regTerm, String.append_assoc]

/-- Witness for C5 on a concrete input: a `MultiBaseSum` with only `reg1 = R1`
populated, byte width tag and offset `0x1f` renders exactly as
`byte ptr [R1 + 1f]`. -/
theorem multibase_sum_render_witness :
    flattenStr (notify_out_operand ["R1", "R2"] (fun _ => none)
        { type := o_idpspec0, dtyp := dt_byte, specflag1 := 0,
          specflag2 := NONE_REG, specflag3 := NONE_REG, specflag4 := NONE_REG,
          value := 0x1f }).2 = "byte ptr [R1 + 1f]" := by
  have h := (multibase_sum_render ["R1", "R2"] (fun _ => none)
    { type := o_idpspec0, dtyp := dt_byte, specflag1 := 0,
      specflag2 := NONE_REG, specflag3 := NONE_REG, specflag4 := NONE_REG,
      value := 0x1f } rfl).2 rfl rfl rfl rfl
  rw [h]
  decide

/-- C6: for every `Displacement` operand (`o_displ`), the renderer emits the
bracketed base register, its `" + "`, the optional index term, then the offset
in hexadecimal, where the index register's name and its trailing `" + "`
appear exactly when the index slot (`op.value`) is not the sentinel (first
conjunct); with a sentinel index the output is exactly `[base + offset]` with
the index term absent and no dangling `+` (second conjunct). -/
theorem displacement_render (regNames : List String) (resolve : Nat → Option String)
    (op : OpT) (ht : op.type = o_displ) :
    (flattenStr (notify_out_operand regNames resolve op).2 =
      "[" ++ regNames.getD op.reg "" ++ " + " ++ regTerm regNames op.value ++
      hexStr op.addr ++ "]") ∧
    (op.value = NONE_REG →
      flattenStr (notify_out_operand regNames resolve op).2 =
        "[" ++ regNames.getD op.reg "" ++ " + " ++ hexStr op.addr ++ "]") := by
  have hmain :
      flattenStr (notify_out_operand regNames resolve op).2 =
        "[" ++ regNames.getD op.reg "" ++ " + " ++ regTerm regNames op.value ++
        hexStr op.addr ++ "]" := by
    by_cases hv : op.value = NONE_REG <;>
      simp [notify_out_operand, ht, o_displ, o_imm, hv, regTerm, flattenStr,
        flattenTok, flattenStr_append, String.append_assoc]
  refine ⟨hmain, ?_⟩
  intro hv
  rw [hmain, hv]
  simp [regTerm, String.append_assoc]

/-- Witness for C6 on a concrete input: a `Displacement` with base `R1`,
sentinel index and offset `0x10` renders exactly as `[R1 + 10]`. -/
theorem displacement_render_witness :
    flattenStr (notify_out_operand ["R1", "R2"] (fun _ => none)
        { type := o_displ, reg := 0, value := NONE_REG, addr := 0x10 }).2 =
      "[R1 + 10]" := by
  have h := (displacement_render ["R1", "R2"] (fun _ => none)
    { type := o_displ, reg := 0, value := NONE_REG, addr := 0x10 } rfl).2 rfl
  rw [h]
  decide

/-- C8: for every `DirectAddress` operand (`o_near` or `o_mem`), the renderer
emits the symbolic form when name resolution succeeds (first conjunct); when
it fails it emits the numeric target in hexadecimal wrapped in the error-color
markers (second conjunct); the callback still reports success, so rendering is
not aborted (third conjunct), and in particular an instruction whose first
operand is unresolved still renders its second operand after it (fourth
conjunct). -/
theorem direct_address_render (regNames : List String) (resolve : Nat → Option String)
    (op : OpT) (ht : op.type = o_near ∨ op.type = o_mem) :
    (∀ nm, resolve op.addr = some nm →
      (notify_out_operand regNames resolve op).2 = [OutToken.nameExpr nm]) ∧
    (resolve op.addr = none →
      (notify_out_operand regNames resolve op).2 =
        [OutToken.tagon, OutToken.long op.addr, OutToken.tagoff] ∧
      flattenStr (notify_out_operand regNames resolve op).2 =
        errTagOn ++ hexStr op.addr ++ errTagOff) ∧
    ((notify_out_operand regNames resolve op).1 = true) ∧
    (∀ (instruc : List InstrucEntry) (insn : InsnT),
      insn.ops.getD 0 default = op →
      (get_canon_feature instruc insn).cfUse1 = true →
      (get_canon_feature instruc insn).cfUse2 = true →
      notify_out_insn instruc regNames resolve insn =
        OutToken.mnem (get_canon_mnem instruc insn) ::
          ((notify_out_operand regNames resolve op).2 ++
            OutToken.str ", " ::
              (notify_out_operand regNames resolve (insn.ops.getD 1 default)).2)) := by
  have hbranch : ∀ r : Bool × List OutToken,
      (notify_out_operand regNames resolve op = r) →
      r = (match resolve op.addr with
           | some nm => (true, [OutToken.nameExpr nm])
           | none => (true, [OutToken.tagon, OutToken.long op.addr, OutToken.tagoff])) := by
    intro r hr
    rw [← hr]
    rcases ht with h | h <;>
      simp [notify_out_operand, h, o_near, o_mem, o_imm, o_displ, o_reg, o_idpspec0]
  have hb := hbranch _ rfl
  refine ⟨?_, ?_, ?_, ?_⟩
  · intro nm hnm
    rw [hb, hnm]
  · intro hnone
    rw [hb, hnone]
    exact ⟨rfl, by simp [flattenStr, flattenTok, String.append_assoc]⟩
  · rcases hr : resolve op.addr with _ | nm <;> rw [hb, hr]
  · intro instruc insn h0 hu1 hu2
    simp only [List.getD, List.get?_eq_getElem?] at h0
    simp [notify_out_insn, hu1, hu2, h0]

/-- Witness for C8 on concrete inputs: with a resolver knowing only address
0x50 as `label_50`, a `DirectAddress` of target 0x50 renders symbolically, one
of target 0x60 renders as the error-marked hex literal, and an instruction
with the unresolved operand first still renders its register second operand. -/
theorem direct_address_render_witness :
    (notify_out_operand ["R1"] (fun a => if a = 0x50 then some "label_50" else none)
        { type := o_near, addr := 0x50 }).2 = [OutToken.nameExpr "label_50"] ∧
    flattenStr (notify_out_operand ["R1"]
        (fun a => if a = 0x50 then some "label_50" else none)
        { type := o_near, addr := 0x60 }).2 = "<color_error>60</color_error>" ∧
    notify_out_insn [⟨"call", ⟨false, false, true, true⟩⟩] ["R1"]
        (fun a => if a = 0x50 then some "label_50" else none)
        ⟨0, 0, 1, [{ type := o_near, addr := 0x60 }, { type := o_reg, reg := 0 }]⟩ =
      [OutToken.mnem "call", OutToken.tagon, OutToken.long 0x60, OutToken.tagoff,
       OutToken.str ", ", OutToken.register "R1"] := by
  refine ⟨?_, ?_, ?_⟩
  · exact (direct_address_render ["R1"]
      (fun a => if a = 0x50 then some "label_50" else none)
      { type := o_near, addr := 0x50 } (Or.inl rfl)).1 "label_50" (by decide)
  · have h := ((direct_address_render ["R1"]
      (fun a => if a = 0x50 then some "label_50" else none)
      { type := o_near, addr := 0x60 } (Or.inl rfl)).2.1 (by decide)).2
    rw [h]
    decide
  · have h := (direct_address_render ["R1"]
      (fun a => if a = 0x50 then some "label_50" else none)
      { type := o_near, addr := 0x60 } (Or.inl rfl)).2.2.2
      [⟨"call", ⟨false, false, true, true⟩⟩]
      ⟨0, 0, 1, [{ type := o_near, addr := 0x60 }, { type := o_reg, reg := 0 }]⟩
      rfl rfl rfl
    rw [h]
    decide

/-- C7: for every decoded instruction, `notify_out_insn` emits the mnemonic
and then exactly the operands declared by the feature flags — operand slot 0
when `CF_USE1` is set and the literal `", "` followed by operand slot 1 when
`CF_USE2` is set, never more and never a count inferred from the populated
slots (first conjunct, an exact description of the whole output for every flag
combination); at display level, both flags give `mnemonic, space, operand 1,
", ", operand 2`, only `CF_USE1` gives `mnemonic, space, operand 1`, and
neither flag gives the bare mnemonic (remaining conjuncts). -/
theorem out_insn_render (instruc : List InstrucEntry) (regNames : List String)
    (resolve : Nat → Option String) (insn : InsnT) :
    (notify_out_insn instruc regNames resolve insn =
      [OutToken.mnem (get_canon_mnem instruc insn)] ++
      (if (get_canon_feature instruc insn).cfUse1 then
        (notify_out_operand regNames resolve (insn.ops.getD 0 default)).2
       else []) ++
      (if (get_canon_feature instruc insn).cfUse2 then
        OutToken.str ", " ::
          (notify_out_operand regNames resolve (insn.ops.getD 1 default)).2
       else [])) ∧
    ((get_canon_feature instruc insn).cfUse1 = true →
      (get_canon_feature instruc insn).cfUse2 = true →
      flattenStr (notify_out_insn instruc regNames resolve insn) =
        get_canon_mnem instruc insn ++ " " ++
        flattenStr (notify_out_operand regNames resolve (insn.ops.getD 0 default)).2 ++
        ", " ++
        flattenStr (notify_out_operand regNames resolve (insn.ops.getD 1 default)).2) ∧
    ((get_canon_feature instruc insn).cfUse1 = true →
      (get_canon_feature instruc insn).cfUse2 = false →
      flattenStr (notify_out_insn instruc regNames resolve insn) =
        get_canon_mnem instruc insn ++ " " ++
        flattenStr (notify_out_operand regNames resolve (insn.ops.getD 0 default)).2) ∧
    ((get_canon_feature instruc insn).cfUse1 = false →
      (get_canon_feature instruc insn).cfUse2 = false →
      flattenStr (notify_out_insn instruc regNames resolve insn) =
        get_canon_mnem instruc insn ++ " ") := by
  refine ⟨rfl, ?_, ?_, ?_⟩
  · intro h1 h2
    simp [notify_out_insn, h1, h2, flattenStr, flattenTok, flattenStr_append,
      String.append_assoc]
  · intro h1 h2
    simp [notify_out_insn, h1, h2, flattenStr, flattenTok, flattenStr_append,
      String.append_assoc]
  · intro h1 h2
    simp [notify_out_insn, h1, h2, flattenStr, flattenTok, String.append_assoc]

/-- Witness for C7 on a concrete input: a two-operand `add` with an immediate
5 and register `R2` renders as `add 5, R2`. -/
theorem out_insn_render_witness :
    flattenStr (notify_out_insn [⟨"add", ⟨false, false, true, true⟩⟩] ["R1", "R2"]
        (fun _ => none)
        ⟨0, 0, 2, [{ type := o_imm, value := 5 }, { type := o_reg, reg := 1 }]⟩) =
      "add 5, R2" := by
  have h := (out_insn_render [⟨"add", ⟨false, false, true, true⟩⟩] ["R1", "R2"]
    (fun _ => none)
    ⟨0, 0, 2, [{ type := o_imm, value := 5 }, { type := o_reg, reg := 1 }]⟩).2.1
    rfl rfl
  rw [h]
  decide

end CustomProc
